import Mathlib

/-!
Verification of the audio-streaming repository (jitter buffer, decode loop,
sample conversion, session negotiation) against its specification.

The Go source is embedded shallowly:
* bytes are `Nat` (their values are only moved around, never computed with);
* the `audioBuffer` struct of the source becomes `AudioBuffer`, with the
  mutex/condition-variable machinery replaced by an explicit state: a blocked
  `Read` and a non-terminating `Write` are represented by `none`;
* Go's `float32` arithmetic is modelled by exact rational arithmetic and the
  float-to-int conversion by exact truncation toward zero;
* the network/HTTP effects of the session negotiator are modelled by an
  explicit environment of step outcomes.
-/

namespace WebRTC

/-- A Go byte.  Only ordering of bytes in buffers matters, never the values. -/
abbrev Byte := Nat

/-- The two `error` values the jitter-buffer code can produce:
`io.ErrClosedPipe` (from `Write` on a closed buffer) and `io.EOF`
(from `Read` on a closed empty buffer). -/
inductive GoError
  | closedPipe
  | eof
deriving DecidableEq, Repr

/-- The `audioBuffer` struct of the source.  The mutex and condition variable
are dropped: operations are atomic state transformers here. -/
structure AudioBuffer where
  buf : List Byte
  closed : Bool
  capacity : Nat
  lowWater : Nat
  highWater : Nat
deriving DecidableEq, Repr

/-- `newAudioBuffer` of the source: 48000 samples/sec * 2 channels * 2
bytes/sample = 192000 bytes/sec; capacity 500 ms, low water 50 ms, high water
4/5 of capacity (400 ms). -/
def newAudioBuffer : AudioBuffer :=
  { buf := []
    closed := false
    capacity := (48000 * 2 * 2) / 2
    lowWater := (48000 * 2 * 2) / 20
    highWater := (((48000 * 2 * 2) / 2) * 4) / 5 }

/-- The discard loop inside `audioBuffer.Write`:

    for len(b.buf)+len(data) > b.highWater {
        dropSize := len(data)
        if dropSize > len(b.buf) { dropSize = len(b.buf) }
        b.buf = b.buf[dropSize:]
    }

The Go loop is not structurally terminating, so it is given explicit fuel;
`none` means the loop has not finished within `fuel` iterations. -/
def dropLoop (highWater dataLen : Nat) : Nat → List Byte → Option (List Byte)
  | 0, _ => none
  | fuel + 1, buf =>
    if buf.length + dataLen > highWater then
      dropLoop highWater dataLen fuel (buf.drop (min dataLen buf.length))
    else
      some buf

/-- `audioBuffer.Write` with explicit fuel for the discard loop.  The result is
`some (newState, n, err)` mirroring Go's `(n int, err error)` return, and
`none` when the discard loop does not finish within `fuel` iterations. -/
def AudioBuffer.WriteFuel (fuel : Nat) (b : AudioBuffer) (data : List Byte) :
    Option (AudioBuffer × Nat × Option GoError) :=
  if data.length = 0 then
    some (b, 0, none)
  else if b.closed then
    some (b, 0, some .closedPipe)
  else
    match dropLoop b.highWater data.length fuel b.buf with
    | none => none
    | some buf' => some ({ b with buf := buf' ++ data }, data.length, none)

/-- `audioBuffer.Write`.  Fuel `b.buf.length + 1` is exact: when the loop
terminates at all it does so within that many iterations (each iteration with a
non-empty buffer drops at least one byte, and an iteration with an empty buffer
either exits or loops forever), so `Write b data = none` holds exactly when the
Go loop runs forever (`write_diverges_iff` below). -/
def AudioBuffer.Write (b : AudioBuffer) (data : List Byte) :
    Option (AudioBuffer × Nat × Option GoError) :=
  b.WriteFuel (b.buf.length + 1) data

/-- `audioBuffer.Read` against a caller buffer of length `n`.  The result is
`some (newState, bytesCopied, err)`; `none` means the `b.cond.Wait()` loop
keeps the reader blocked in this state (fill below the low-water mark and not
closed). -/
def AudioBuffer.Read (b : AudioBuffer) (n : Nat) :
    Option (AudioBuffer × List Byte × Option GoError) :=
  if b.buf.length < b.lowWater ∧ b.closed = false then
    none
  else if b.closed = true ∧ b.buf.length = 0 then
    some (b, [], some .eof)
  else
    some ({ b with buf := b.buf.drop n }, b.buf.take n, none)

/-- `audioBuffer.Close`: sets the closed flag (and broadcasts, which has no
state effect here); always returns a nil error. -/
def AudioBuffer.Close (b : AudioBuffer) : AudioBuffer × Option GoError :=
  ({ b with closed := true }, none)

/-- One operation a client can perform on the jitter buffer. -/
inductive BufOp
  | write (data : List Byte)
  | read (n : Nat)
  | close

/-- Apply one operation to the buffer state.  An operation that does not
complete (a blocked read, a diverging write) yields no observable post-state,
so the state is unchanged. -/
def stepBuf (b : AudioBuffer) : BufOp → AudioBuffer
  | .write data =>
    match b.Write data with
    | some (b', _, _) => b'
    | none => b
  | .read n =>
    match b.Read n with
    | some (b', _, _) => b'
    | none => b
  | .close => (b.Close).1

/-- Run a sequence of operations from the freshly constructed buffer. -/
def runBuf (ops : List BufOp) : AudioBuffer :=
  ops.foldl stepBuf newAudioBuffer

/-- Like `stepBuf`, but also track the logical stream: the concatenation of the
payloads of all writes that completed successfully (nil error). -/
def stepBufH (p : AudioBuffer × List Byte) : BufOp → AudioBuffer × List Byte
  | .write data =>
    match p.1.Write data with
    | some (b', _, none) => (b', p.2 ++ data)
    | some (b', _, some _) => (b', p.2)
    | none => p
  | .read n =>
    match p.1.Read n with
    | some (b', _, _) => (b', p.2)
    | none => p
  | .close => ((p.1.Close).1, p.2)

/-- Run a sequence of operations from the fresh buffer, tracking the logical
stream of successfully written bytes. -/
def runBufH (ops : List BufOp) : AudioBuffer × List Byte :=
  ops.foldl stepBufH (newAudioBuffer, [])

/-- A closed empty buffer with the constructor's configuration. -/
def closedBuffer : AudioBuffer :=
  { buf := [], closed := true, capacity := 96000, lowWater := 9600, highWater := 76800 }

/-- A closed buffer still holding three bytes (for draining scenarios). -/
def drainBuffer : AudioBuffer :=
  { buf := [10, 20, 30], closed := true, capacity := 96000, lowWater := 9600,
    highWater := 76800 }

/-- An open buffer with a low-water mark of 100 bytes, as in the spec's
blocking-read example. -/
def smallBuffer : AudioBuffer :=
  { buf := [], closed := false, capacity := 1000, lowWater := 100, highWater := 800 }

/-! ### Sample conversion (outbound/recording paths)

`recordAudioToWav` in `audio-input.go` converts decoded `float32` samples to
16-bit PCM:

    val := int32(decodedFloatBuf[i] * 32767)
    if val > 32767 { pcm16[i] = 32767 }
    else if val < -32768 { pcm16[i] = -32768 }
    else { pcm16[i] = int16(val) }

and the echo demo's main loop performs the same conversion with the two clamp
branches in the other order.  A `float32` value is modelled by an exact
rational and Go's float-to-integer conversion by exact truncation toward
zero. -/

/-- Go's float-to-int conversion: truncation toward zero. -/
def truncTowardZero (q : ℚ) : ℤ :=
  if 0 ≤ q then ⌊q⌋ else ⌈q⌉

/-- The float32-to-int16 conversion of `recordAudioToWav`
(`src/audio-input.go`). -/
def float32ToInt16 (sample : ℚ) : ℤ :=
  let val := truncTowardZero (sample * 32767)
  if val > 32767 then 32767
  else if val < -32768 then -32768
  else val

/-- The float32-to-16-bit-range conversion of the echo demo's capture loop
(clamp branches checked in the opposite order). -/
def micSampleToInt16 (sample : ℚ) : ℤ :=
  let v := truncTowardZero (sample * 32767)
  if v < -32768 then -32768
  else if v > 32767 then 32767
  else v

/-! ### The inbound decode loop

`WriteWebRTCTrack` (both the opus-v2 and opus-v3 players) loops: read an RTP
packet, decode its payload, and on decode failure print and `continue`; on
success write the PCM bytes to the jitter buffer (and on a write error, again
print and `continue`).  A frame is modelled by its decode outcome. -/

/-- One incoming compressed frame, by its decode outcome: `malformed` when the
opus decoder rejects it, otherwise the PCM bytes it decodes to. -/
inductive InboundFrame
  | malformed
  | valid (pcm : List Byte)

/-- The decode loop over a finite packet sequence, threading the jitter-buffer
state and recording the PCM payloads successfully written to it.  A malformed
frame is skipped; a write whose discard loop would not terminate ends the
model (it cannot occur for frame-sized payloads). -/
def inboundDecodeLoop :
    List InboundFrame → AudioBuffer → List (List Byte) →
      AudioBuffer × List (List Byte)
  | [], b, delivered => (b, delivered)
  | .malformed :: rest, b, delivered => inboundDecodeLoop rest b delivered
  | .valid pcm :: rest, b, delivered =>
    match b.Write pcm with
    | some (b', _, none) => inboundDecodeLoop rest b' (delivered ++ [pcm])
    | some (b', _, some _) => inboundDecodeLoop rest b' delivered
    | none => (b, delivered)

/-! ### Session negotiation (`OpenAIRealtimeAPI`) -/

/-- The connection-relevant state of the `OpenAIRealtimeAPI` struct: the
cached ephemeral token and whether the peer connection and data channel
handles are set (non-nil). -/
structure OpenAIRealtimeAPI where
  Key : String
  Model : String
  Voice : String
  ephemeralToken : String
  peerConnectionSet : Bool
  dataChannelSet : Bool
deriving DecidableEq, Repr

/-- `NewOpenAIRealtimeAPI`. -/
def NewOpenAIRealtimeAPI (key : String) : OpenAIRealtimeAPI :=
  { Key := key
    Model := "gpt-4o-realtime-preview-2024-12-17"
    Voice := "verse"
    ephemeralToken := ""
    peerConnectionSet := false
    dataChannelSet := false }

/-- Outcomes of the effectful steps of `Connect`, supplied as an environment:
`createEphemeralToken` is the token the HTTP exchange would return (`none` for
a failed exchange), and the three booleans are the success of
`setupPeerConnection`, `connectToRealtimeAPI` and `setupDataChannel`. -/
structure ConnectEnv where
  createEphemeralToken : Option String
  setupPeerConnectionOk : Bool
  connectToRealtimeAPIOk : Bool
  setupDataChannelOk : Bool
deriving DecidableEq, Repr

/-- Which step of `Connect` failed, mirroring the error returns. -/
inductive ConnectError
  | tokenExchange
  | peerConnectionSetup
  | realtimeConnect
  | dataChannelSetup
deriving DecidableEq, Repr

/-- Result of `Connect`: final state, error, and whether the token-exchange
step (`createEphemeralToken`) was performed. -/
structure ConnectOutcome where
  state : OpenAIRealtimeAPI
  error : Option ConnectError
  acquiredToken : Bool
deriving DecidableEq, Repr

/-- The part of `Connect` after the token check: `setupPeerConnection`, then
`connectToRealtimeAPI` and `setupDataChannel`, each closing and clearing the
peer connection on failure. -/
def connectAfterToken (c : OpenAIRealtimeAPI) (env : ConnectEnv)
    (acquired : Bool) : ConnectOutcome :=
  if env.setupPeerConnectionOk = false then
    { state := c, error := some .peerConnectionSetup, acquiredToken := acquired }
  else
    let c1 := { c with peerConnectionSet := true }
    if env.connectToRealtimeAPIOk = false then
      { state := { c1 with peerConnectionSet := false }
        error := some .realtimeConnect, acquiredToken := acquired }
    else if env.setupDataChannelOk = false then
      { state := { c1 with peerConnectionSet := false }
        error := some .dataChannelSetup, acquiredToken := acquired }
    else
      { state := { c1 with dataChannelSet := true }
        error := none, acquiredToken := acquired }

/-- `OpenAIRealtimeAPI.Connect`: the ephemeral token is exchanged only when no
token is cached (`c.ephemeralToken == ""`); otherwise the cached one is used
as is. -/
def OpenAIRealtimeAPI.Connect (c : OpenAIRealtimeAPI) (env : ConnectEnv) :
    ConnectOutcome :=
  if c.ephemeralToken = "" then
    match env.createEphemeralToken with
    | none => { state := c, error := some .tokenExchange, acquiredToken := true }
    | some tok =>
      connectAfterToken { c with ephemeralToken := tok } env true
  else
    connectAfterToken c env false

/-- `OpenAIRealtimeAPI.Disconnect`: closes and clears the data channel and the
peer connection; the cached ephemeral token is deliberately NOT reset (the
source comments out `c.ephemeralToken = ""`). -/
def OpenAIRealtimeAPI.Disconnect (c : OpenAIRealtimeAPI) : OpenAIRealtimeAPI :=
  { c with dataChannelSet := false, peerConnectionSet := false }

/-- A session that already holds a cached ephemeral token. -/
def sessionWithToken : OpenAIRealtimeAPI :=
  { NewOpenAIRealtimeAPI "api-key" with ephemeralToken := "cached-token" }

/-- An environment in which every effectful step of `Connect` succeeds. -/
def happyEnv : ConnectEnv :=
  { createEphemeralToken := some "fresh-token"
    setupPeerConnectionOk := true
    connectToRealtimeAPIOk := true
    setupDataChannelOk := true }

/-! ### Basic facts about the discard loop -/

/-- When the discard loop finishes, it has made room: the retained bytes plus
the incoming write fit under the high-water mark. -/
theorem dropLoop_fits {hw dl : Nat} :
    ∀ {fuel : Nat} {buf r : List Byte},
      dropLoop hw dl fuel buf = some r → r.length + dl ≤ hw := by
  intro fuel
  induction fuel with
  | zero => intro buf r h; simp [dropLoop] at h
  | succ fuel ih =>
    intro buf r h
    simp only [dropLoop] at h
    split at h
    · exact ih h
    · rename_i hc
      cases h
      omega

/-- The discard loop only removes bytes from the front: its result is a suffix
of the buffer it started from. -/
theorem dropLoop_suffix {hw dl : Nat} :
    ∀ {fuel : Nat} {buf r : List Byte},
      dropLoop hw dl fuel buf = some r → r <:+ buf := by
  intro fuel
  induction fuel with
  | zero => intro buf r h; simp [dropLoop] at h
  | succ fuel ih =>
    intro buf r h
    simp only [dropLoop] at h
    split at h
    · exact (ih h).trans (List.drop_suffix _ _)
    · cases h
      exact List.suffix_refl _

/-- When the incoming data alone exceeds the high-water mark, the discard loop
never finishes, whatever the starting buffer: no amount of fuel suffices. -/
theorem dropLoop_diverges {hw dl : Nat} (hdl : hw < dl) :
    ∀ (fuel : Nat) (buf : List Byte), dropLoop hw dl fuel buf = none := by
  intro fuel
  induction fuel with
  | zero => intro buf; simp [dropLoop]
  | succ fuel ih =>
    intro buf
    simp only [dropLoop]
    rw [if_pos (by omega)]
    exact ih _

/-- When the incoming data fits under the high-water mark on its own and is
non-empty, the discard loop finishes within any fuel exceeding the buffer
length: each iteration with a non-empty buffer drops at least one byte, and an
empty buffer satisfies the exit condition. -/
theorem dropLoop_terminates {hw dl : Nat} (hpos : 0 < dl) (hfit : dl ≤ hw) :
    ∀ (fuel : Nat) (buf : List Byte), buf.length < fuel →
      ∃ r, dropLoop hw dl fuel buf = some r := by
  intro fuel
  induction fuel with
  | zero => intro buf h; omega
  | succ fuel ih =>
    intro buf hlen
    by_cases hc : buf.length + dl > hw
    · have hne : buf.length ≠ 0 := by
        intro h0
        omega
      have hdropped : (buf.drop (min dl buf.length)).length < fuel := by
        simp only [List.length_drop]
        omega
      obtain ⟨r, hr⟩ := ih _ hdropped
      exact ⟨r, by simp only [dropLoop, if_pos hc]; exact hr⟩
    · exact ⟨buf, by simp only [dropLoop, if_neg hc]⟩

/-! ### Characterising `Write`, `Read`, `Close` -/

/-- A zero-length write is a no-op returning `(0, nil)`, before the closed
check is even reached. -/
theorem AudioBuffer.write_nil (b : AudioBuffer) : b.Write [] = some (b, 0, none) := by
  simp [Write, WriteFuel]

/-- A non-empty write on a closed buffer returns `(0, io.ErrClosedPipe)` and
leaves the state unchanged. -/
theorem AudioBuffer.write_closed {b : AudioBuffer} {data : List Byte}
    (hcl : b.closed = true) (hne : data ≠ []) :
    b.Write data = some (b, 0, some .closedPipe) := by
  simp [Write, WriteFuel, hcl, List.length_eq_zero, hne]

/-- Any completed write leaves the configuration fields and the closed flag
unchanged: only `buf` can change. -/
theorem AudioBuffer.write_fields {b b' : AudioBuffer} {data : List Byte}
    {n : Nat} {e : Option GoError} (h : b.Write data = some (b', n, e)) :
    b'.closed = b.closed ∧ b'.capacity = b.capacity ∧
      b'.lowWater = b.lowWater ∧ b'.highWater = b.highWater := by
  simp only [Write, WriteFuel] at h
  split at h
  · simp only [Option.some.injEq, Prod.mk.injEq] at h
    obtain ⟨h1, -, -⟩ := h
    subst h1
    exact ⟨rfl, rfl, rfl, rfl⟩
  · split at h
    · simp only [Option.some.injEq, Prod.mk.injEq] at h
      obtain ⟨h1, -, -⟩ := h
      subst h1
      exact ⟨rfl, rfl, rfl, rfl⟩
    · split at h
      · exact absurd h (by simp)
      · simp only [Option.some.injEq, Prod.mk.injEq] at h
        obtain ⟨h1, -, -⟩ := h
        subst h1
        exact ⟨rfl, rfl, rfl, rfl⟩

/-- A write that completes with an error is exactly the closed-pipe case and
changes nothing. -/
theorem AudioBuffer.write_err {b b' : AudioBuffer} {data : List Byte}
    {n : Nat} {e : GoError} (h : b.Write data = some (b', n, some e)) :
    b' = b ∧ n = 0 ∧ e = .closedPipe ∧ b.closed = true ∧ data ≠ [] := by
  simp only [Write, WriteFuel] at h
  split at h
  · simp at h
  · rename_i hlen
    split at h
    · rename_i hcl
      simp only [Option.some.injEq, Prod.mk.injEq] at h
      obtain ⟨h1, h2, h3⟩ := h
      exact ⟨h1.symm, h2.symm, by simpa using h3.symm, hcl,
        by simpa [List.length_eq_zero] using hlen⟩
    · split at h
      · exact absurd h (by simp)
      · simp at h

/-- A write that completes without error either had empty data (no-op) or
appended its data after the discard loop made room. -/
theorem AudioBuffer.write_ok {b b' : AudioBuffer} {data : List Byte} {n : Nat}
    (h : b.Write data = some (b', n, none)) :
    (data = [] ∧ b' = b ∧ n = 0) ∨
      (∃ r, dropLoop b.highWater data.length (b.buf.length + 1) b.buf = some r ∧
        b' = { b with buf := r ++ data } ∧ n = data.length) := by
  simp only [Write, WriteFuel] at h
  split at h
  · rename_i hlen
    simp only [Option.some.injEq, Prod.mk.injEq] at h
    obtain ⟨h1, h2, -⟩ := h
    exact Or.inl ⟨List.length_eq_zero.mp hlen, h1.symm, h2.symm⟩
  · split at h
    · simp at h
    · split at h
      · exact absurd h (by simp)
      · rename_i r hr
        simp only [Option.some.injEq, Prod.mk.injEq] at h
        obtain ⟨h1, h2, -⟩ := h
        exact Or.inr ⟨r, hr, h1.symm, h2.symm⟩

/-- `Write` fails to terminate exactly when the data is non-empty, the buffer
is open, and the data alone exceeds the high-water mark. -/
theorem AudioBuffer.write_diverges_iff {b : AudioBuffer} {data : List Byte} :
    b.Write data = none ↔
      data ≠ [] ∧ b.closed = false ∧ b.highWater < data.length := by
  constructor
  · intro h
    simp only [Write, WriteFuel] at h
    split at h
    · simp at h
    · rename_i hlen
      split at h
      · simp at h
      · rename_i hcl
        refine ⟨by simpa [List.length_eq_zero] using hlen, by simpa using hcl, ?_⟩
        by_contra hle
        push_neg at hle
        obtain ⟨r, hr⟩ :=
          dropLoop_terminates (by omega) hle (b.buf.length + 1) b.buf (by omega)
        rw [hr] at h
        simp at h
  · rintro ⟨hne, hcl, hgt⟩
    have hlen : ¬ data.length = 0 := by simpa [List.length_eq_zero] using hne
    simp only [Write, WriteFuel, hcl, if_neg hlen, Bool.false_eq_true, if_false]
    rw [dropLoop_diverges hgt]

/-- An open buffer accepts any write whose data fits under the high-water
mark: the write completes without error and reports all bytes written. -/
theorem AudioBuffer.write_total {b : AudioBuffer} {data : List Byte}
    (hcl : b.closed = false) (hfit : data.length ≤ b.highWater) :
    ∃ b', b.Write data = some (b', data.length, none) ∧
      b'.closed = false ∧ b'.capacity = b.capacity ∧
      b'.lowWater = b.lowWater ∧ b'.highWater = b.highWater := by
  cases hdata : data with
  | nil => exact ⟨b, by simpa using b.write_nil, hcl, rfl, rfl, rfl⟩
  | cons a tl =>
    subst hdata
    obtain ⟨r, hr⟩ :=
      dropLoop_terminates (by simp) hfit (b.buf.length + 1) b.buf (by omega)
    refine ⟨{ b with buf := r ++ a :: tl }, ?_, hcl, rfl, rfl, rfl⟩
    simp only [Write, WriteFuel, hcl]
    rw [if_neg (by simp), if_neg (by simp), hr]

/-- A reader stays blocked exactly when the fill is below the low-water mark
and the buffer is not closed. -/
theorem AudioBuffer.read_blocked_iff {b : AudioBuffer} {n : Nat} :
    b.Read n = none ↔ b.buf.length < b.lowWater ∧ b.closed = false := by
  constructor
  · intro h
    simp only [Read] at h
    split at h
    · assumption
    · split at h <;> simp at h
  · intro hc
    simp [Read, hc]

/-- A read from a closed empty buffer reports end-of-stream. -/
theorem AudioBuffer.read_eof {b : AudioBuffer} (n : Nat)
    (hcl : b.closed = true) (hemp : b.buf = []) :
    b.Read n = some (b, [], some .eof) := by
  simp [Read, hcl, hemp]

/-- A read from a closed non-empty buffer keeps draining: it returns the first
`n` buffered bytes with a nil error, leaving the rest. -/
theorem AudioBuffer.read_drain {b : AudioBuffer} (n : Nat)
    (hcl : b.closed = true) (hne : b.buf ≠ []) :
    b.Read n = some ({ b with buf := b.buf.drop n }, b.buf.take n, none) := by
  simp [Read, hcl, hne]

/-- Shape of any completed read: either the end-of-stream case on a closed
empty buffer, or the copy of the first `n` bytes. -/
theorem AudioBuffer.read_ok {b b' : AudioBuffer} {n : Nat} {out : List Byte}
    {e : Option GoError} (h : b.Read n = some (b', out, e)) :
    (b' = b ∧ out = [] ∧ e = some .eof ∧ b.closed = true ∧ b.buf = []) ∨
      (b' = { b with buf := b.buf.drop n } ∧ out = b.buf.take n ∧ e = none) := by
  simp only [Read] at h
  split at h
  · simp at h
  · split at h
    · rename_i hc
      simp only [Option.some.injEq, Prod.mk.injEq] at h
      obtain ⟨h1, h2, h3⟩ := h
      exact Or.inl ⟨h1.symm, h2.symm, h3.symm, hc.1, List.length_eq_zero.mp hc.2⟩
    · simp only [Option.some.injEq, Prod.mk.injEq] at h
      obtain ⟨h1, h2, h3⟩ := h
      exact Or.inr ⟨h1.symm, h2.symm, h3.symm⟩

/-- Any completed read returns exactly the front of the buffer: the returned
bytes followed by the remaining bytes are the original buffer contents. -/
theorem AudioBuffer.read_front {b b' : AudioBuffer} {n : Nat} {out : List Byte}
    {e : Option GoError} (h : b.Read n = some (b', out, e)) :
    out ++ b'.buf = b.buf := by
  rcases b.read_ok h with ⟨hb, ho, -, -, hemp⟩ | ⟨hb, ho, -⟩
  · simp [hb, ho, hemp]
  · simp [hb, ho]

/-- Any completed read leaves the configuration fields and the closed flag
unchanged, and never grows the buffer. -/
theorem AudioBuffer.read_fields {b b' : AudioBuffer} {n : Nat} {out : List Byte}
    {e : Option GoError} (h : b.Read n = some (b', out, e)) :
    b'.closed = b.closed ∧ b'.capacity = b.capacity ∧
      b'.lowWater = b.lowWater ∧ b'.highWater = b.highWater ∧
      b'.buf.length ≤ b.buf.length := by
  rcases b.read_ok h with ⟨hb, -, -, -, -⟩ | ⟨hb, -, -⟩ <;>
    simp [hb, List.length_drop]

/-! ### The watermark invariant over operation sequences (C1) -/

/-- One step never changes the configuration fields and preserves the
invariant that the fill is at most the high-water mark. -/
theorem stepBuf_inv {b : AudioBuffer} (op : BufOp)
    (h : b.buf.length ≤ b.highWater) :
    (stepBuf b op).buf.length ≤ (stepBuf b op).highWater ∧
      (stepBuf b op).capacity = b.capacity ∧
      (stepBuf b op).lowWater = b.lowWater ∧
      (stepBuf b op).highWater = b.highWater := by
  cases op with
  | write data =>
    simp only [stepBuf]
    cases hw : b.Write data with
    | none => exact ⟨h, rfl, rfl, rfl⟩
    | some res =>
      obtain ⟨b', n, e⟩ := res
      obtain ⟨-, hcap, hlow, hhigh⟩ := AudioBuffer.write_fields hw
      refine ⟨?_, hcap, hlow, hhigh⟩
      rw [hhigh]
      cases e with
      | none =>
        rcases AudioBuffer.write_ok hw with ⟨-, hb, -⟩ | ⟨r, hr, hb, -⟩
        · simpa [hb] using h
        · have := dropLoop_fits hr
          simp [hb]
          omega
      | some e =>
        obtain ⟨hb, -, -, -, -⟩ := AudioBuffer.write_err hw
        simpa [hb] using h
  | read n =>
    simp only [stepBuf]
    cases hr : b.Read n with
    | none => exact ⟨h, rfl, rfl, rfl⟩
    | some res =>
      obtain ⟨b', out, e⟩ := res
      obtain ⟨-, hcap, hlow, hhigh, hlen⟩ := AudioBuffer.read_fields hr
      refine ⟨?_, hcap, hlow, hhigh⟩
      show b'.buf.length ≤ b'.highWater
      omega
  | close => exact ⟨h, rfl, rfl, rfl⟩

/-- The invariant of `stepBuf_inv` propagates along any operation sequence. -/
theorem foldl_stepBuf_inv (ops : List BufOp) :
    ∀ b : AudioBuffer, b.buf.length ≤ b.highWater →
      (ops.foldl stepBuf b).buf.length ≤ (ops.foldl stepBuf b).highWater ∧
        (ops.foldl stepBuf b).capacity = b.capacity ∧
        (ops.foldl stepBuf b).lowWater = b.lowWater ∧
        (ops.foldl stepBuf b).highWater = b.highWater := by
  induction ops with
  | nil => exact fun b h => ⟨h, rfl, rfl, rfl⟩
  | cons op rest ih =>
    intro b h
    obtain ⟨h1, h2, h3, h4⟩ := stepBuf_inv op h
    obtain ⟨g1, g2, g3, g4⟩ := ih (stepBuf b op) h1
    exact ⟨g1, g2.trans h2, g3.trans h3, g4.trans h4⟩

/-- `WriteFuel` diverges at every fuel once the data alone exceeds the
high-water mark on an open buffer. -/
theorem AudioBuffer.writeFuel_diverges {b : AudioBuffer} {data : List Byte}
    (hne : data ≠ []) (hcl : b.closed = false) (hgt : b.highWater < data.length) :
    ∀ fuel : Nat, b.WriteFuel fuel data = none := by
  intro fuel
  have hlen : ¬ data.length = 0 := by simpa [List.length_eq_zero] using hne
  simp only [WriteFuel, hcl, if_neg hlen, Bool.false_eq_true, if_false]
  rw [dropLoop_diverges hgt]

/-! ### FIFO order: the buffer contents are a suffix of the logical stream -/

/-- One history step preserves the invariant that the buffer contents are a
suffix of the logical stream of successfully written bytes. -/
theorem stepBufH_suffix {p : AudioBuffer × List Byte} (op : BufOp)
    (h : p.1.buf <:+ p.2) :
    (stepBufH p op).1.buf <:+ (stepBufH p op).2 := by
  obtain ⟨b, s⟩ := p
  cases op with
  | write data =>
    show (stepBufH (b, s) (.write data)).1.buf <:+ (stepBufH (b, s) (.write data)).2
    simp only [stepBufH]
    cases hw : b.Write data with
    | none => exact h
    | some res =>
      obtain ⟨b', n, e⟩ := res
      cases e with
      | none =>
        show b'.buf <:+ s ++ data
        rcases AudioBuffer.write_ok hw with ⟨hd, hb, -⟩ | ⟨r, hr, hb, -⟩
        · subst hd
          subst hb
          simpa using h
        · have hsuf : r <:+ s := ((dropLoop_suffix hr).trans h)
          obtain ⟨u, hu⟩ := hsuf
          refine ⟨u, ?_⟩
          rw [hb]
          show u ++ (r ++ data) = s ++ data
          rw [← List.append_assoc, hu]
      | some e =>
        obtain ⟨hb, -, -, -, -⟩ := AudioBuffer.write_err hw
        show b'.buf <:+ s
        rw [hb]
        exact h
  | read n =>
    show (stepBufH (b, s) (.read n)).1.buf <:+ (stepBufH (b, s) (.read n)).2
    simp only [stepBufH]
    cases hr : b.Read n with
    | none => exact h
    | some res =>
      obtain ⟨b', out, e⟩ := res
      show b'.buf <:+ s
      rcases AudioBuffer.read_ok hr with ⟨hb, -, -, -, -⟩ | ⟨hb, -, -⟩
      · rw [hb]; exact h
      · rw [hb]
        exact (List.drop_suffix n b.buf).trans h
  | close => exact h

/-- The suffix invariant propagates along any operation sequence. -/
theorem foldl_stepBufH_suffix (ops : List BufOp) :
    ∀ p : AudioBuffer × List Byte, p.1.buf <:+ p.2 →
      (ops.foldl stepBufH p).1.buf <:+ (ops.foldl stepBufH p).2 := by
  induction ops with
  | nil => exact fun p h => h
  | cons op rest ih => exact fun p h => ih _ (stepBufH_suffix op h)

/-! ### Claim theorems -/

/-- C1: for every sequence of write/read/close operations starting from the
freshly constructed jitter buffer, the fill stays between 0 and the capacity
(lengths are naturals, so 0 ≤ fill is inherent); in fact the fill never
exceeds the high-water mark after any completed operation, which subsumes the
claim's conditional about writes that would have exceeded it; and the
constructor establishes low-water < high-water < capacity. -/
theorem watermark_invariant :
    (∀ ops : List BufOp,
        (runBuf ops).buf.length ≤ (runBuf ops).capacity ∧
        (runBuf ops).buf.length ≤ (runBuf ops).highWater) ∧
    newAudioBuffer.lowWater < newAudioBuffer.highWater ∧
    newAudioBuffer.highWater < newAudioBuffer.capacity := by
  refine ⟨fun ops => ?_, by decide, by decide⟩
  simp only [runBuf]
  obtain ⟨h1, h2, -, h4⟩ :=
    foldl_stepBuf_inv ops newAudioBuffer (by decide)
  have e2 : newAudioBuffer.capacity = 96000 := by decide
  have e4 : newAudioBuffer.highWater = 76800 := by decide
  omega

/-- C2: the claim says `Write` terminates for every input; it does not.  When
the incoming data alone exceeds the high-water mark (here 76801 bytes against
the constructor's high-water mark of 76800) on an open buffer, the discard
loop never finishes — once the buffer is empty `dropSize` is 0 and the guard
`len(b.buf)+len(data) > b.highWater` stays true — so no amount of fuel makes
`Write` return. -/
theorem write_oversized_never_terminates :
    ∀ fuel : Nat,
      newAudioBuffer.WriteFuel fuel (List.replicate 76801 0) = none := by
  have hne : (List.replicate 76801 (0 : Byte)) ≠ [] := by
    have h : (List.replicate 76801 (0 : Byte)).length = 76801 :=
      List.length_replicate _ _
    exact List.ne_nil_of_length_pos (by omega)
  exact AudioBuffer.writeFuel_diverges hne rfl (by norm_num [newAudioBuffer])

/-- C3: after every operation sequence from the fresh buffer, the retained
bytes are a contiguous suffix of the logical stream of all successfully
written bytes (discards and reads both remove only from the front), and any
completed read returns exactly the front of the buffer, in order: the returned
bytes followed by the remaining bytes reconstruct the buffer contents. -/
theorem fifo_after_discard :
    (∀ ops : List BufOp, (runBufH ops).1.buf <:+ (runBufH ops).2) ∧
    ∀ (b b' : AudioBuffer) (n : Nat) (out : List Byte) (e : Option GoError),
      b.Read n = some (b', out, e) → out ++ b'.buf = b.buf := by
  refine ⟨fun ops => ?_, fun b b' n out e h => AudioBuffer.read_front h⟩
  simp only [runBufH]
  exact foldl_stepBufH_suffix ops (newAudioBuffer, []) ⟨[], rfl⟩

/-- Witness for C3 at concrete inputs: a one-write run, and a concrete read
from a closed three-byte buffer. -/
theorem fifo_after_discard_witness :
    ((runBufH [BufOp.write [1, 2, 3]]).1.buf <:+ (runBufH [BufOp.write [1, 2, 3]]).2) ∧
      [10, 20] ++ ({ drainBuffer with buf := [30] } : AudioBuffer).buf = drainBuffer.buf :=
  ⟨fifo_after_discard.1 [BufOp.write [1, 2, 3]],
    fifo_after_discard.2 drainBuffer { drainBuffer with buf := [30] } 2 [10, 20] none
      (by decide)⟩

/-- C4: a blocked reader is released exactly when the fill reaches the
low-water mark or the buffer is closed; a released read copies up to `n`
available bytes and returns even if fewer are available; and in the spec's
example (low-water = 100), a 60-byte write leaves the reader blocked while a
second 60-byte write releases it. -/
theorem blocking_read_threshold :
    (∀ (b : AudioBuffer) (n : Nat),
        b.Read n = none ↔ b.buf.length < b.lowWater ∧ b.closed = false) ∧
    (∀ (b b' : AudioBuffer) (n : Nat) (out : List Byte),
        b.Read n = some (b', out, none) →
          out = b.buf.take n ∧ b'.buf = b.buf.drop n) ∧
    (smallBuffer.Write (List.replicate 60 0)
        = some ({ smallBuffer with buf := List.replicate 60 0 }, 60, none) ∧
      ({ smallBuffer with buf := List.replicate 60 0 } : AudioBuffer).Read 200 = none ∧
      ({ smallBuffer with buf := List.replicate 60 0 } : AudioBuffer).Write
          (List.replicate 60 0)
        = some ({ smallBuffer with buf := List.replicate 120 0 }, 60, none) ∧
      ({ smallBuffer with buf := List.replicate 120 0 } : AudioBuffer).Read 200
        = some ({ smallBuffer with buf := [] }, List.replicate 120 0, none)) := by
  refine ⟨fun b n => AudioBuffer.read_blocked_iff,
    fun b b' n out h => ?_, by decide, by decide, by decide, by decide⟩
  rcases AudioBuffer.read_ok h with ⟨-, -, he, -, -⟩ | ⟨hb, ho, -⟩
  · simp at he
  · exact ⟨ho, by rw [hb]⟩

/-- Witness for C4 at concrete inputs: an open below-low-water buffer blocks,
and a concrete released read copies the front. -/
theorem blocking_read_threshold_witness :
    smallBuffer.Read 10 = none ∧
      ([10, 20] = drainBuffer.buf.take 2 ∧
        ({ drainBuffer with buf := [30] } : AudioBuffer).buf = drainBuffer.buf.drop 2) :=
  ⟨(blocking_read_threshold.1 smallBuffer 10).mpr (by decide),
    blocking_read_threshold.2.1 drainBuffer { drainBuffer with buf := [30] } 2 [10, 20]
      (by decide)⟩

/-- C5: after `Close`, reads on a non-empty buffer keep draining it (front
first, nil error); only a read on the empty closed buffer reports
end-of-stream; `Close` is idempotent and always returns a nil error; and after
`Close` no reader ever blocks (the broadcast wakes them all and `closed` keeps
them awake). -/
theorem close_drains_then_ends :
    (∀ (b : AudioBuffer) (n : Nat), b.closed = true → b.buf ≠ [] →
        b.Read n = some ({ b with buf := b.buf.drop n }, b.buf.take n, none)) ∧
    (∀ (b : AudioBuffer) (n : Nat), b.closed = true → b.buf = [] →
        b.Read n = some (b, [], some GoError.eof)) ∧
    (∀ b : AudioBuffer, (b.Close).1.Close = b.Close ∧ (b.Close).2 = none) ∧
    (∀ (b : AudioBuffer) (n : Nat), (b.Close).1.Read n ≠ none) := by
  refine ⟨fun b n hcl hne => AudioBuffer.read_drain n hcl hne,
    fun b n hcl hemp => AudioBuffer.read_eof n hcl hemp,
    fun b => ⟨rfl, rfl⟩,
    fun b n h => ?_⟩
  rw [AudioBuffer.read_blocked_iff] at h
  simp [AudioBuffer.Close] at h

/-- Witness for C5 at concrete inputs: a closed three-byte buffer drains fully
on one read, and the closed empty buffer reports end-of-stream. -/
theorem close_drains_then_ends_witness :
    drainBuffer.Read 5 = some ({ drainBuffer with buf := [] }, [10, 20, 30], none) ∧
      closedBuffer.Read 5 = some (closedBuffer, [], some GoError.eof) :=
  ⟨(close_drains_then_ends.1 drainBuffer 5 rfl (by decide)).trans (by decide),
    close_drains_then_ends.2.1 closedBuffer 5 rfl rfl⟩

/-- C6 counterexample: not every write to a closed buffer signals the closed
failure.  The zero-length check precedes the closed check, so an empty write
to the closed buffer returns `(0, nil)` — no failure — refuting the claim as
universally stated. -/
theorem write_closed_empty_no_failure :
    closedBuffer.closed = true ∧
      closedBuffer.Write [] = some (closedBuffer, 0, none) ∧
      closedBuffer.Write [] ≠ some (closedBuffer, 0, some GoError.closedPipe) := by
  decide

/-- C6 (amended): every NON-EMPTY write to a closed jitter buffer signals the
distinct closed failure (`io.ErrClosedPipe`), reports 0 bytes written, and
leaves the buffer unchanged. -/
theorem write_closed_signals_failure :
    ∀ (b : AudioBuffer) (data : List Byte), b.closed = true → data ≠ [] →
      b.Write data = some (b, 0, some GoError.closedPipe) :=
  fun _ _ hcl hne => AudioBuffer.write_closed hcl hne

/-- Witness for the amended C6 at a concrete input. -/
theorem write_closed_signals_failure_witness :
    closedBuffer.Write [1] = some (closedBuffer, 0, some GoError.closedPipe) :=
  write_closed_signals_failure closedBuffer [1] rfl (by decide)

/-- C10: an empty write returns success — 0 bytes written, nil error — and
leaves the buffer unchanged, for every buffer state including closed ones (the
zero-length check precedes the closed check), stated for all buffers and then
at the closed buffer explicitly. -/
theorem write_empty_returns_success :
    (∀ b : AudioBuffer, b.Write [] = some (b, 0, none)) ∧
      closedBuffer.Write [] = some (closedBuffer, 0, none) :=
  ⟨fun b => b.write_nil, closedBuffer.write_nil⟩

/-! ### Saturation facts for the sample conversions -/

/-- The two conversion sites differ only in the order of the two (mutually
exclusive) clamp branches, so they agree everywhere. -/
theorem micSampleToInt16_eq_float32ToInt16 (q : ℚ) :
    micSampleToInt16 q = float32ToInt16 q := by
  simp only [micSampleToInt16, float32ToInt16]
  split_ifs <;> omega

/-- Samples above 1.0 convert to 32767. -/
theorem float32ToInt16_pos {q : ℚ} (hq : 1 < q) : float32ToInt16 q = 32767 := by
  have h0 : (0 : ℚ) ≤ q * 32767 := by nlinarith
  have hx : (32767 : ℚ) ≤ q * 32767 := by nlinarith
  have hval : (32767 : ℤ) ≤ truncTowardZero (q * 32767) := by
    simp only [truncTowardZero, if_pos h0]
    exact Int.le_floor.mpr (by exact_mod_cast hx)
  simp only [float32ToInt16]
  split_ifs <;> omega

/-- Samples at or below -32768/32767 convert to -32768. -/
theorem float32ToInt16_neg {q : ℚ} (hq : q ≤ -(32768 / 32767)) :
    float32ToInt16 q = -32768 := by
  have hx : q * 32767 ≤ -32768 := by
    have h1 : q * 32767 ≤ -(32768 / 32767) * 32767 :=
      mul_le_mul_of_nonneg_right hq (by norm_num)
    have h2 : (-(32768 / 32767) : ℚ) * 32767 = -32768 := by norm_num
    linarith
  have h0 : ¬ (0 : ℚ) ≤ q * 32767 := by linarith
  have hval : truncTowardZero (q * 32767) ≤ -32768 := by
    simp only [truncTowardZero, if_neg h0]
    exact Int.ceil_le.mpr (by exact_mod_cast hx)
  simp only [float32ToInt16]
  split_ifs <;> omega

/-- The conversion result always lies in the representable 16-bit range. -/
theorem float32ToInt16_range (q : ℚ) :
    -32768 ≤ float32ToInt16 q ∧ float32ToInt16 q ≤ 32767 := by
  simp only [float32ToInt16]
  split_ifs <;> omega

/-- C7 counterexample: the sample -65535/65534 has magnitude greater than 1.0,
yet both conversion sites map it to -32767, which is neither representable
extremum (32767 or -32768): the claim as stated fails on the negative band
(-32768/32767, -1). -/
theorem float_conversion_not_extremum :
    1 < |(-65535 / 65534 : ℚ)| ∧
      float32ToInt16 (-65535 / 65534) = -32767 ∧
      micSampleToInt16 (-65535 / 65534) = -32767 ∧
      (-32767 : ℤ) ≠ 32767 ∧ (-32767 : ℤ) ≠ -32768 := by
  have hx : ((-65535 : ℚ) / 65534) * 32767 = -65535 / 2 := by norm_num
  have h0 : ¬ (0 : ℚ) ≤ (-65535 : ℚ) / 2 := by norm_num
  have hceil : ⌈((-65535 : ℚ) / 2)⌉ = -32767 := by
    rw [Int.ceil_eq_iff]
    constructor <;> norm_num
  have hval : float32ToInt16 (-65535 / 65534) = -32767 := by
    simp only [float32ToInt16, truncTowardZero, hx, if_neg h0, hceil]
    norm_num
  refine ⟨?_, hval,
    by rw [micSampleToInt16_eq_float32ToInt16]; exact hval,
    by norm_num, by norm_num⟩
  rw [abs_of_neg (by norm_num)]
  norm_num

/-- C7 (amended): both float-to-16-bit conversion sites saturate rather than
wrap: samples above 1.0 clamp to 32767; samples at or below -32768/32767 clamp
to -32768; and every sample converts to a value in [-32768, 32767].  (Negative
samples with magnitude in (1, 32768/32767) convert to -32767, not to the
extremum -32768 — see the counterexample.) -/
theorem saturating_conversion :
    (∀ q : ℚ, 1 < q →
        float32ToInt16 q = 32767 ∧ micSampleToInt16 q = 32767) ∧
    (∀ q : ℚ, q ≤ -(32768 / 32767) →
        float32ToInt16 q = -32768 ∧ micSampleToInt16 q = -32768) ∧
    (∀ q : ℚ,
        -32768 ≤ float32ToInt16 q ∧ float32ToInt16 q ≤ 32767 ∧
        -32768 ≤ micSampleToInt16 q ∧ micSampleToInt16 q ≤ 32767) := by
  refine ⟨fun q hq => ?_, fun q hq => ?_, fun q => ?_⟩
  · exact ⟨float32ToInt16_pos hq,
      by rw [micSampleToInt16_eq_float32ToInt16]; exact float32ToInt16_pos hq⟩
  · exact ⟨float32ToInt16_neg hq,
      by rw [micSampleToInt16_eq_float32ToInt16]; exact float32ToInt16_neg hq⟩
  · obtain ⟨h1, h2⟩ := float32ToInt16_range q
    rw [micSampleToInt16_eq_float32ToInt16]
    exact ⟨h1, h2, h1, h2⟩

/-- Witness for the amended C7 at the concrete samples 2, -2 and 0. -/
theorem saturating_conversion_witness :
    (float32ToInt16 2 = 32767 ∧ micSampleToInt16 2 = 32767) ∧
      (float32ToInt16 (-2) = -32768 ∧ micSampleToInt16 (-2) = -32768) ∧
      (-32768 ≤ float32ToInt16 0 ∧ float32ToInt16 0 ≤ 32767 ∧
        -32768 ≤ micSampleToInt16 0 ∧ micSampleToInt16 0 ≤ 32767) :=
  ⟨saturating_conversion.1 2 (by norm_num),
    saturating_conversion.2.1 (-2) (by norm_num),
    saturating_conversion.2.2 0⟩

/-- C8: a malformed frame anywhere in the packet sequence is skipped without
any effect — the loop's result on `pre ++ [malformed] ++ post` equals its
result on `pre ++ post` — and on an open buffer a sequence of valid
frame-sized payloads is delivered to the jitter buffer in full and in
order. -/
theorem inbound_per_item_resilience :
    (∀ (pre post : List InboundFrame) (b : AudioBuffer)
        (delivered : List (List Byte)),
        inboundDecodeLoop (pre ++ InboundFrame.malformed :: post) b delivered
          = inboundDecodeLoop (pre ++ post) b delivered) ∧
    (∀ (ps : List (List Byte)) (b : AudioBuffer) (delivered : List (List Byte)),
        b.closed = false → (∀ p ∈ ps, p.length ≤ b.highWater) →
          (inboundDecodeLoop (ps.map InboundFrame.valid) b delivered).2
            = delivered ++ ps) := by
  constructor
  · intro pre
    induction pre with
    | nil => intro post b d; rfl
    | cons f rest ih =>
      intro post b d
      cases f with
      | malformed =>
        simp only [List.cons_append, inboundDecodeLoop]
        exact ih post b d
      | valid pcm =>
        simp only [List.cons_append, inboundDecodeLoop]
        cases hw : b.Write pcm with
        | none => rfl
        | some res =>
          obtain ⟨b', n, e⟩ := res
          cases e with
          | none => exact ih post b' (d ++ [pcm])
          | some e => exact ih post b' d
  · intro ps
    induction ps with
    | nil => intro b d hcl hfit; simp [inboundDecodeLoop]
    | cons p rest ih =>
      intro b d hcl hfit
      obtain ⟨b', hw, hcl', -, -, hhw⟩ :=
        AudioBuffer.write_total hcl (hfit p (List.mem_cons_self _ _))
      have hfits : ∀ x ∈ rest, x.length ≤ b'.highWater := by
        intro x hx
        rw [hhw]
        exact hfit x (List.mem_cons_of_mem _ hx)
      simp only [List.map_cons, inboundDecodeLoop, hw]
      rw [ih b' (d ++ [p]) hcl' hfits]
      simp

/-- Witness for C8 at a concrete three-frame sequence with the middle frame
malformed, starting from the fresh buffer. -/
theorem inbound_per_item_resilience_witness :
    (inboundDecodeLoop
        ([InboundFrame.valid [1]] ++ InboundFrame.malformed :: [InboundFrame.valid [2]])
        newAudioBuffer []
      = inboundDecodeLoop ([InboundFrame.valid [1]] ++ [InboundFrame.valid [2]])
        newAudioBuffer []) ∧
      (inboundDecodeLoop ([[1], [2]].map InboundFrame.valid) newAudioBuffer []).2
        = [] ++ [[1], [2]] :=
  ⟨inbound_per_item_resilience.1 [InboundFrame.valid [1]] [InboundFrame.valid [2]]
      newAudioBuffer [],
    inbound_per_item_resilience.2 [[1], [2]] newAudioBuffer [] rfl (by decide)⟩

/-! ### Cached credential reuse -/

/-- The steps of `Connect` after the token check never touch the cached
ephemeral token and report the acquisition flag they were given. -/
theorem connectAfterToken_token (c : OpenAIRealtimeAPI) (env : ConnectEnv)
    (a : Bool) :
    (connectAfterToken c env a).state.ephemeralToken = c.ephemeralToken ∧
      (connectAfterToken c env a).acquiredToken = a := by
  simp only [connectAfterToken]
  split_ifs <;> exact ⟨rfl, rfl⟩

/-- C9: when a session credential is already cached (non-empty token), a
connect attempt skips the token exchange and reuses the cached credential
unchanged; the exchange is performed only when no credential is held; and
disconnecting never clears the cached credential. -/
theorem cached_token_reuse :
    (∀ (c : OpenAIRealtimeAPI) (env : ConnectEnv), c.ephemeralToken ≠ "" →
        (c.Connect env).acquiredToken = false ∧
        (c.Connect env).state.ephemeralToken = c.ephemeralToken) ∧
    (∀ (c : OpenAIRealtimeAPI) (env : ConnectEnv),
        (c.Connect env).acquiredToken = true → c.ephemeralToken = "") ∧
    (∀ c : OpenAIRealtimeAPI, c.Disconnect.ephemeralToken = c.ephemeralToken) := by
  refine ⟨fun c env h => ?_, fun c env h => ?_, fun c => rfl⟩
  · simp only [OpenAIRealtimeAPI.Connect, if_neg h]
    exact ⟨(connectAfterToken_token c env false).2,
      (connectAfterToken_token c env false).1⟩
  · by_cases ht : c.ephemeralToken = ""
    · exact ht
    · exfalso
      simp only [OpenAIRealtimeAPI.Connect, if_neg ht] at h
      rw [(connectAfterToken_token c env false).2] at h
      exact Bool.false_ne_true h

/-- Witness for C9 at concrete sessions: one with a cached token (reused,
exchange skipped), one fresh (exchange performed only because no token was
held), plus a disconnect. -/
theorem cached_token_reuse_witness :
    ((sessionWithToken.Connect happyEnv).acquiredToken = false ∧
      (sessionWithToken.Connect happyEnv).state.ephemeralToken
        = sessionWithToken.ephemeralToken) ∧
      (NewOpenAIRealtimeAPI "api-key").ephemeralToken = "" ∧
      sessionWithToken.Disconnect.ephemeralToken = sessionWithToken.ephemeralToken :=
  ⟨cached_token_reuse.1 sessionWithToken happyEnv (by decide),
    cached_token_reuse.2.1 (NewOpenAIRealtimeAPI "api-key") happyEnv (by decide),
    cached_token_reuse.2.2 sessionWithToken⟩

end WebRTC
